import Mathlib
/-! Verification development for the 3D-object-tracking core
(`src/camFusion_Student.cpp`).

Modelling conventions, used throughout:

* IEEE-754 `double`/`float` values are modelled as exact rationals (`ℚ`);
  none of the verified properties concerns rounding error.
* A C++ conversion from a floating-point value to `int` truncates toward
  zero; it is modelled by `truncQ`.
* `cv::Mat` is a dynamically sized row-major matrix of doubles; a matrix is
  modelled as a total function `ℕ → ℕ → ℚ` and a column vector as
  `ℕ → ℚ`.  All products occurring in the source have inner dimension 4
  (`P_rect_xx * R_rect_xx * RT * X` with a 3×4, two 4×4 and a 4×1 operand),
  so a single multiplication with a four-term dot product is faithful.
* `cv::Mat::at<double>(r, c)` (release build) reads the element at flat
  row-major offset `r * cols + c` of the data buffer; for the 3×1 result
  vector `Y` this is modelled by `cvAt3`.  In particular `Y.at(0, 2)` reads
  the third element of the buffer, i.e. the third coordinate of `Y`.
* `cv::Rect` (integer fields) containment `x ≤ px < x + width ∧
  y ≤ py < y + height` is modelled by `rectContainsI`; containment of a
  float point in an integer rectangle (`roi.contains(kpt.pt)`) is modelled
  by the exact comparison `rectContainsQ` on the rational coordinates.
* `std::nth_element(b, b + n, e)` is modelled through its postcondition:
  after the call the element at index `n` is the one a full ascending sort
  would put there.  The reordering is modelled as that full ascending sort
  (a legal implementation of `nth_element`); only the indexed elements are
  ever read by the source.
* `cv::norm(p - q)` (Euclidean pixel distance) is irrational in general;
  the correspondence pipeline carries its square (`sqDist`).  Since both
  comparison bounds are nonnegative, `dist > ε ↔ dist² > ε²` and
  `dist ≥ 100 ↔ dist² ≥ 100²`, so the recorded-ratio bookkeeping is exact;
  the real-valued ratio list is recovered as the square roots of the
  squared ratios.
* An out parameter set to `NAN` is modelled by an `Option` result, `none`
  standing for not-a-number.
-/
/-- Truncation toward zero of a rational, the C++ `double → int` conversion. -/
def truncQ (q : ℚ) : ℤ := if 0 ≤ q then ⌊q⌋ else ⌈q⌉
/-- A `cv::Rect` with integer fields. -/
structure Rect where
  x : ℤ
  y : ℤ
  width : ℤ
  height : ℤ
deriving DecidableEq, Repr
/-- Model of `cv::Rect::contains` on an integer point. -/
def rectContainsI (r : Rect) (p : ℤ × ℤ) : Bool :=
  decide (r.x ≤ p.1) && decide (p.1 < r.x + r.width) &&
  decide (r.y ≤ p.2) && decide (p.2 < r.y + r.height)
/-- Model of `cv::Rect::contains` on a float point (exact comparison). -/
def rectContainsQ (r : Rect) (p : ℚ × ℚ) : Bool :=
  decide ((r.x : ℚ) ≤ p.1) && decide (p.1 < (r.x : ℚ) + (r.width : ℚ)) &&
  decide ((r.y : ℚ) ≤ p.2) && decide (p.2 < (r.y : ℚ) + (r.height : ℚ))
/-- A `LidarPoint` from `dataStructures.h`: position in meters plus
reflectivity. -/
structure LidarPoint where
  x : ℚ
  y : ℚ
  z : ℚ
  r : ℚ
deriving DecidableEq, Repr
/-- A keypoint position (`cv::KeyPoint::pt`), in pixel coordinates. -/
abbrev KeyPoint := ℚ × ℚ
/-- A `cv::DMatch`: indices of the matched keypoints in the previous
(`queryIdx`) and current (`trainIdx`) frame plus descriptor distance. -/
structure DMatch where
  queryIdx : ℕ
  trainIdx : ℕ
  distance : ℚ
deriving DecidableEq, Repr
/-- A `BoundingBox` from `dataStructures.h` (the fields the core touches). -/
structure BoundingBox where
  boxID : ℤ
  roi : Rect
  lidarPoints : List LidarPoint
  keypoints : List KeyPoint
  kptMatches : List DMatch
deriving DecidableEq, Repr
/-- A `DataFrame` (the fields `matchBoundingBoxes` touches). -/
structure DataFrame where
  keypoints : List KeyPoint
  boundingBoxes : List BoundingBox
deriving DecidableEq, Repr
/-- Default bounding box used by total list indexing (`List.getD`); all
indices used by the theorems stay in range. -/
def emptyBox : BoundingBox := ⟨0, ⟨0, 0, 0, 0⟩, [], [], []⟩
/-! Section: projection inside `clusterLidarWithROI` (lines 18–33). -/
/-- A matrix of doubles (`cv::Mat`), row-major, total on `ℕ × ℕ`; entries
outside the dimensions the source uses are never read. -/
abbrev MatQ := ℕ → ℕ → ℚ
/-- A column vector of doubles. -/
abbrev VecQ := ℕ → ℚ
/-- Matrix product with inner dimension 4 (every product in the source has
inner dimension 4). -/
def matMul (A B : MatQ) : MatQ := fun i j =>
  A i 0 * B 0 j + A i 1 * B 1 j + A i 2 * B 2 j + A i 3 * B 3 j
/-- Matrix–vector product with inner dimension 4. -/
def matApp (A : MatQ) (v : VecQ) : VecQ := fun i =>
  A i 0 * v 0 + A i 1 * v 1 + A i 2 * v 2 + A i 3 * v 3
/-- The homogeneous 4-vector `[x, y, z, 1]` assembled from a Lidar point
(lines 24–27). -/
def homog (p : LidarPoint) : VecQ := fun i =>
  if i = 0 then p.x else if i = 1 then p.y else if i = 2 then p.z else
  if i = 3 then 1 else 0
/-- The product `Y = P_rect_xx * R_rect_xx * RT * X` (line 30), with the source's
left-associated product order. -/
def projectLidar (P R RT : MatQ) (p : LidarPoint) : VecQ :=
  matApp (matMul (matMul P R) RT) (homog p)
/-- Model of `cv::Mat::at<double>(r, c)` on the 3×1 result vector `Y` (release-build
semantics): flat row-major offset `r * cols + c` with `cols = 1`. -/
def cvAt3 (Y : VecQ) (r c : ℕ) : ℚ := Y (r * 1 + c)
/-- The pixel coordinate as the pair of double quotients computed on
lines 32–33: `(Y.at(0,0) / Y.at(0,2), Y.at(1,0) / Y.at(0,2))`. -/
def pixelQ (P R RT : MatQ) (p : LidarPoint) : ℚ × ℚ :=
  (cvAt3 (projectLidar P R RT p) 0 0 / cvAt3 (projectLidar P R RT p) 0 2,
   cvAt3 (projectLidar P R RT p) 1 0 / cvAt3 (projectLidar P R RT p) 0 2)
/-- The integer pixel stored in `cv::Point pt` (lines 31–33): each quotient
is truncated toward zero by the `double → int` assignment. -/
def pixelOf (P R RT : MatQ) (p : LidarPoint) : ℤ × ℤ :=
  (truncQ (pixelQ P R RT p).1, truncQ (pixelQ P R RT p).2)
/-! Section: `clusterLidarWithROI` (lines 15–61). -/
/-- The shrunk bounding box of lines 39–43: each double expression is
truncated by the assignment to the integer `cv::Rect` field. -/
def shrinkRect (shrinkFactor : ℚ) (r : Rect) : Rect :=
  { x := truncQ ((r.x : ℚ) + shrinkFactor * (r.width : ℚ) / 2)
    y := truncQ ((r.y : ℚ) + shrinkFactor * (r.height : ℚ) / 2)
    width := truncQ ((r.width : ℚ) * (1 - shrinkFactor))
    height := truncQ ((r.height : ℚ) * (1 - shrinkFactor)) }
/-- Indices of all bounding boxes whose shrunk region contains the pixel
(the `enclosingBoxes` vector of lines 35–51, iterators replaced by
indices). -/
def enclosingIdxs (boundingBoxes : List BoundingBox) (shrinkFactor : ℚ)
    (pt : ℤ × ℤ) : List ℕ :=
  (List.range boundingBoxes.length).filter
    (fun i => rectContainsI (shrinkRect shrinkFactor ((boundingBoxes.getD i emptyBox).roi)) pt)
/-- Append a Lidar point to the `lidarPoints` of the box at the given index
(`enclosingBoxes[0]->lidarPoints.push_back(*it1)`, line 57). -/
def setLidar : List BoundingBox → ℕ → LidarPoint → List BoundingBox
  | [], _, _ => []
  | b :: bs, 0, p => { b with lidarPoints := b.lidarPoints ++ [p] } :: bs
  | b :: bs, n + 1, p => b :: setLidar bs n p
/-- One iteration of the loop over Lidar points (lines 21–60): if the
`enclosingBoxes` list has exactly one entry (`enclosingBoxes.size() == 1`,
line 54), push the point onto that box (`enclosingBoxes[0]`, line 57). -/
def stepLidar (shrinkFactor : ℚ) (P R RT : MatQ) (boundingBoxes : List BoundingBox)
    (p : LidarPoint) : List BoundingBox :=
  if (enclosingIdxs boundingBoxes shrinkFactor (pixelOf P R RT p)).length = 1 then
    setLidar boundingBoxes
      ((enclosingIdxs boundingBoxes shrinkFactor (pixelOf P R RT p)).getD 0 0) p
  else boundingBoxes
/-- The function `clusterLidarWithROI` (lines 15–61): associate each Lidar point with
the unique bounding box whose shrunk region contains its projected pixel. -/
def clusterLidarWithROI (boundingBoxes : List BoundingBox)
    (lidarPoints : List LidarPoint) (shrinkFactor : ℚ) (P R RT : MatQ) :
    List BoundingBox :=
  lidarPoints.foldl (stepLidar shrinkFactor P R RT) boundingBoxes
/-! Section: `clusterKptMatchesWithROI` (lines 133–164). -/
/-- The `kptMatchesROI` containment filter of lines 135–140: keep the
correspondences whose current-frame keypoint (`kptsCurr.at(match.trainIdx).pt`)
lies inside the box's unshrunk `roi`. -/
def kptMatchesROI (boundingBox : BoundingBox) (kptsCurr : List KeyPoint)
    (kptMatches : List DMatch) : List DMatch :=
  kptMatches.filter (fun m => rectContainsQ boundingBox.roi (kptsCurr.getD m.trainIdx (0, 0)))
/-- The outlier threshold of lines 143–156: the mean descriptor distance
over the filtered set (`avgDist`) times `0.8`. -/
def kptThreshold (boundingBox : BoundingBox) (kptsCurr : List KeyPoint)
    (kptMatches : List DMatch) : ℚ :=
  ((kptMatchesROI boundingBox kptsCurr kptMatches).map DMatch.distance).sum /
    ((kptMatchesROI boundingBox kptsCurr kptMatches).length : ℚ) * (8 / 10)
/-- The function `clusterKptMatchesWithROI` (lines 133–164): filter the correspondences
to the box's region, then append to the box's `kptMatches` those whose
descriptor distance is below `0.8 ×` the mean distance of the filtered set;
an empty filtered set returns early, leaving the box untouched.
`kptsPrev` is accepted but, as in the source, never read. -/
def clusterKptMatchesWithROI (boundingBox : BoundingBox)
    (kptsPrev kptsCurr : List KeyPoint) (kptMatches : List DMatch) : BoundingBox :=
  if 0 < (kptMatchesROI boundingBox kptsCurr kptMatches).length then
    { boundingBox with
      kptMatches := boundingBox.kptMatches ++
        (kptMatchesROI boundingBox kptsCurr kptMatches).filter
          (fun m => decide (m.distance < kptThreshold boundingBox kptsCurr kptMatches)) }
  else boundingBox
/-- The block of correspondences one call of `clusterKptMatchesWithROI`
appends to the box (empty when the containment filter is empty). -/
def kptSuffix (boundingBox : BoundingBox) (kptsCurr : List KeyPoint)
    (kptMatches : List DMatch) : List DMatch :=
  if 0 < (kptMatchesROI boundingBox kptsCurr kptMatches).length then
    (kptMatchesROI boundingBox kptsCurr kptMatches).filter
      (fun m => decide (m.distance < kptThreshold boundingBox kptsCurr kptMatches))
  else []
/-! Section: `median` (lines 166–183). -/
/-- The function `median` (lines 166–183), polymorphic over the linear ordered field so
the same embedding serves the rational (double) and the real-valued uses:
`retVal = 0.0`; empty input returns it; otherwise `nth_element` places the
order statistic `n = size/2` at index `n` (modelled by the full ascending
sort, see the header); for even sizes a second `nth_element` on the
reordered data places order statistic `n − 1` (the multiset is unchanged,
so the sorted sequence is the same) and the two are averaged. -/
def median {α : Type} [LinearOrderedField α] (distRatios : List α) : α :=
  if distRatios.length = 0 then 0
  else if distRatios.length % 2 = 0 then
    ((distRatios.mergeSort (fun a b => decide (a ≤ b))).getD (distRatios.length / 2) 0 +
      (distRatios.mergeSort (fun a b => decide (a ≤ b))).getD (distRatios.length / 2 - 1) 0) / 2
  else (distRatios.mergeSort (fun a b => decide (a ≤ b))).getD (distRatios.length / 2) 0
/-! Section: `computeTTCCamera` (lines 186–238). -/
/-- The constant `std::numeric_limits<double>::epsilon()`. -/
def dblEps : ℚ := 1 / 2 ^ 52
/-- Squared Euclidean pixel distance, the square of `cv::norm(p - q)`. -/
def sqDist (p q : KeyPoint) : ℚ := (p.1 - q.1) ^ 2 + (p.2 - q.2) ^ 2
/-- The recording condition of line 218, carried on squared distances:
`distPrev > epsilon ∧ distCurr ≥ minDist` (with `minDist = 100.0`, line
208) is equivalent to `sqPrev > epsilon² ∧ sqCurr ≥ 100²` because both
bounds are nonnegative. -/
def ratioCondSq (kptsPrev kptsCurr : List KeyPoint) (m1 m2 : DMatch) : Prop :=
  dblEps ^ 2 <
      sqDist (kptsPrev.getD m1.queryIdx (0, 0)) (kptsPrev.getD m2.queryIdx (0, 0)) ∧
    (100 : ℚ) ^ 2 ≤
      sqDist (kptsCurr.getD m1.trainIdx (0, 0)) (kptsCurr.getD m2.trainIdx (0, 0))
instance (kptsPrev kptsCurr : List KeyPoint) (m1 m2 : DMatch) :
    Decidable (ratioCondSq kptsPrev kptsCurr m1 m2) := by
  unfold ratioCondSq; infer_instance
/-- The squared distance ratio `distRatio² = distCurr² / distPrev²` of
line 221. -/
def ratioSq (kptsPrev kptsCurr : List KeyPoint) (m1 m2 : DMatch) : ℚ :=
  sqDist (kptsCurr.getD m1.trainIdx (0, 0)) (kptsCurr.getD m2.trainIdx (0, 0)) /
    sqDist (kptsPrev.getD m1.queryIdx (0, 0)) (kptsPrev.getD m2.queryIdx (0, 0))
/-- The `distRatios` vector of lines 190–225, carried as squared ratios
(see the header): the outer iterator `it1` runs over `[begin, end-1)`,
i.e. over all but the last element (`dropLast`); the inner iterator `it2`
runs over `[begin+1, end)`, i.e. over all but the first (`tail`); a ratio
is pushed whenever the condition of line 218 holds. -/
def distRatiosSq (kptsPrev kptsCurr : List KeyPoint) (kptMatches : List DMatch) :
    List ℚ :=
  kptMatches.dropLast.foldl (fun acc m1 =>
    kptMatches.tail.foldl (fun acc2 m2 =>
      if ratioCondSq kptsPrev kptsCurr m1 m2 then
        acc2 ++ [ratioSq kptsPrev kptsCurr m1 m2]
      else acc2) acc) []
/-- Comprehension form of `distRatiosSq`, for the refinement theorem: one
recorded ratio per ordered pair drawn from `dropLast × tail` that satisfies
the recording condition. -/
def distRatiosSqSpec (kptsPrev kptsCurr : List KeyPoint) (kptMatches : List DMatch) :
    List ℚ :=
  kptMatches.dropLast.flatMap (fun m1 =>
    kptMatches.tail.filterMap (fun m2 =>
      if ratioCondSq kptsPrev kptsCurr m1 m2 then
        some (ratioSq kptsPrev kptsCurr m1 m2)
      else none))
/-- The unordered pairs of distinct correspondences (by position) that
satisfy the recording condition — the enumeration Claim C4 asserts. -/
def qualifyingPairs (kptsPrev kptsCurr : List KeyPoint) (kptMatches : List DMatch) :
    List (ℕ × ℕ) :=
  (List.range kptMatches.length).flatMap (fun i =>
    ((List.range kptMatches.length).filter (fun j => decide (i < j))).filterMap (fun j =>
      if ratioCondSq kptsPrev kptsCurr (kptMatches.getD i ⟨0, 0, 0⟩) (kptMatches.getD j ⟨0, 0, 0⟩)
      then some (i, j) else none))
/-- The function `computeTTCCamera` (lines 186–238).  `none` models the `NAN` out
parameter.  The real-valued recorded ratio list is the elementwise square
root of `distRatiosSq` (the lists have equal length, and square root is
monotone, so emptiness tests and the median's order statistics agree with
the source); the returned value is `-dT / (1 - median)` with
`dT = 1/frameRate`. -/
noncomputable def computeTTCCamera (kptsPrev kptsCurr : List KeyPoint)
    (kptMatches : List DMatch) (frameRate : ℚ) : Option ℝ :=
  if kptMatches.length = 0 then none
  else if (distRatiosSq kptsPrev kptsCurr kptMatches).length = 0 then none
  else some (-(1 / (frameRate : ℝ)) /
    (1 - median ((distRatiosSq kptsPrev kptsCurr kptMatches).map
      (fun q => Real.sqrt (q : ℝ)))))
/-! Section: `computeTTCLidar` (lines 241–277). -/
/-- The in-lane longitudinal coordinates: `x` of every point with
`|y| ≤ laneWidth/2` (lines 252–262, `laneWidth = 4.0`). -/
def inLaneX (lidarPoints : List LidarPoint) : List ℚ :=
  (lidarPoints.filter (fun p => decide (|p.y| ≤ (4 : ℚ) / 2))).map LidarPoint.x
/-- The function `computeTTCLidar` (lines 241–277): mean of in-lane `x` per frame;
`none` (NAN) when either filtered set is empty; otherwise
`TTC = avgXCurr * dT / (avgXPrev - avgXCurr)` with `dT = 1/frameRate`. -/
def computeTTCLidar (lidarPointsPrev lidarPointsCurr : List LidarPoint)
    (frameRate : ℚ) : Option ℚ :=
  if 0 < (inLaneX lidarPointsPrev).length ∧ 0 < (inLaneX lidarPointsCurr).length then
    some ((inLaneX lidarPointsCurr).sum / ((inLaneX lidarPointsCurr).length : ℚ) *
        (1 / frameRate) /
      ((inLaneX lidarPointsPrev).sum / ((inLaneX lidarPointsPrev).length : ℚ) -
        (inLaneX lidarPointsCurr).sum / ((inLaneX lidarPointsCurr).length : ℚ)))
  else none
/-! Section: `matchBoundingBoxes`, vote-counting phase (lines 280–325). -/
/-- The integer `cv::Point` built from a keypoint on lines 291 and 295:
each float coordinate is truncated by the `int` constructor parameter. -/
def truncPt (k : KeyPoint) : ℤ × ℤ := (truncQ k.1, truncQ k.2)
/-- The `queryId` vector of lines 300–307: indices of previous-frame boxes
containing the previous keypoint, scanned up to `prev_bb_cnt`. -/
def queryIdList (prevFrame : DataFrame) (pt : ℤ × ℤ) : List ℕ :=
  (List.range prevFrame.boundingBoxes.length).filter
    (fun i => rectContainsI ((prevFrame.boundingBoxes.getD i emptyBox).roi) pt)
/-- The `trainId` vector of lines 309–316, modelled faithfully to the
source: the scan over `currFrame.boundingBoxes` is bounded by
`prev_bb_cnt`, the *previous* frame's box count (line 309).  When the
previous count exceeds the current count the C++ code reads past the end
of the current frame's box vector; the embedding totalizes that read with
`List.getD` and the theorems only instantiate inputs with
`prev_bb_cnt ≤ curr_bb_cnt`. -/
def trainIdList (prevFrame currFrame : DataFrame) (pt : ℤ × ℤ) : List ℕ :=
  (List.range prevFrame.boundingBoxes.length).filter
    (fun i => rectContainsI ((currFrame.boundingBoxes.getD i emptyBox).roi) pt)
/-- Increment one cell of the vote matrix (`point_count[i][j] += 1`,
line 322). -/
def bumpVote (cnt : ℕ → ℕ → ℕ) (i j : ℕ) : ℕ → ℕ → ℕ :=
  fun a b => if a = i ∧ b = j then cnt a b + 1 else cnt a b
/-- The vote matrix `point_count` after the loop over all matches
(lines 284–325): for each correspondence, if both id lists are non-empty
(`queryPtFound && trainPtFound`), every `(prev, curr)` pair in their cross
product receives one vote. -/
def pointCount (kptMatches : List DMatch) (prevFrame currFrame : DataFrame) :
    ℕ → ℕ → ℕ :=
  kptMatches.foldl (fun cnt m =>
    if (queryIdList prevFrame (truncPt (prevFrame.keypoints.getD m.queryIdx (0, 0)))).length ≠ 0 ∧
       (trainIdList prevFrame currFrame (truncPt (currFrame.keypoints.getD m.trainIdx (0, 0)))).length ≠ 0
    then
      (queryIdList prevFrame (truncPt (prevFrame.keypoints.getD m.queryIdx (0, 0)))).foldl
        (fun c1 i =>
          (trainIdList prevFrame currFrame
              (truncPt (currFrame.keypoints.getD m.trainIdx (0, 0)))).foldl
            (fun c2 j => bumpVote c2 i j) c1)
        cnt
    else cnt) (fun _ _ => 0)
/-! Section: concrete fixtures used by the closed theorems. -/
/-- The identity matrix (entries beyond the used dimensions are irrelevant);
also serves as a projection whose used 3×4 part is the top of the identity. -/
def idMat4 : MatQ := fun i j => if i = j then 1 else 0
/-- A projection matrix whose third row is zero: every point projects with
homogeneous scale `w = 0`. -/
def projDeg : MatQ := fun i j => if (i = 0 ∧ j = 0) ∨ (i = 1 ∧ j = 1) then 1 else 0
/-- A range point; under `projDeg` its projected vector is `[3, 4, 0]`. -/
def ptDeg : LidarPoint := ⟨3, 4, 1, 0⟩
/-- A box whose region contains the pixel `(0, 0)`. -/
def boxA : BoundingBox := ⟨0, ⟨0, 0, 10, 10⟩, [], [], []⟩
/-- A box containing pixel `(5, 7)`. -/
def boxB : BoundingBox := ⟨1, ⟨0, 0, 10, 10⟩, [], [], []⟩
/-- A box containing pixel `(25, 25)`. -/
def boxC : BoundingBox := ⟨2, ⟨20, 20, 10, 10⟩, [], [], []⟩
/-- A range point projecting (under the identity calibration) to `(5, 7)`. -/
def pInB : LidarPoint := ⟨5, 7, 1, 0⟩
/-- A range point projecting (under the identity calibration) to `(100, 100)`,
inside no box. -/
def pOut : LidarPoint := ⟨100, 100, 1, 0⟩
/-- Four correspondences, each matching keypoint `k` to keypoint `k`. -/
def ms4 : List DMatch := [⟨0, 0, 0⟩, ⟨1, 1, 0⟩, ⟨2, 2, 0⟩, ⟨3, 3, 0⟩]
/-- Previous-frame keypoints with unit spacing on the x-axis. -/
def kPrev4 : List KeyPoint := [(0, 0), (1, 0), (2, 0), (3, 0)]
/-- Current-frame keypoints with spacing 100 on the x-axis: every pairwise
distance is 100 times the previous one. -/
def kCurr4 : List KeyPoint := [(0, 0), (100, 0), (200, 0), (300, 0)]
/-- Two correspondences for the camera-TTC witness. -/
def ms2 : List DMatch := [⟨0, 0, 0⟩, ⟨1, 1, 0⟩]
/-- Previous-frame keypoints at distance 1. -/
def kPrev2 : List KeyPoint := [(0, 0), (1, 0)]
/-- Current-frame keypoints at distance 100. -/
def kCurr2 : List KeyPoint := [(0, 0), (100, 0)]
/-- Previous-frame range measurement with in-lane mean 10. -/
def lpPrev10 : List LidarPoint := [⟨10, 0, 0, 0⟩]
/-- Current-frame range measurement with in-lane mean 9. -/
def lpCurr9 : List LidarPoint := [⟨9, 0, 0, 0⟩]
/-- A box whose region is `[0,100) × [0,100)`. -/
def boxK : BoundingBox := ⟨3, ⟨0, 0, 100, 100⟩, [], [], []⟩
/-- Current keypoints: two inside `boxK`, one outside. -/
def kCurrK : List KeyPoint := [(10, 10), (20, 20), (200, 200)]
/-- Distances 1 and 3 inside the box (mean 2, threshold 1.6), 50 outside. -/
def msK : List DMatch := [⟨0, 0, 1⟩, ⟨1, 1, 3⟩, ⟨2, 2, 50⟩]
/-- Two in-box correspondences with the identical distance 5. -/
def msKsame : List DMatch := [⟨0, 0, 5⟩, ⟨1, 1, 5⟩]
/-- Previous frame for the box-matcher theorem: one keypoint at `(5, 5)`,
one box containing it. -/
def prevF1 : DataFrame := ⟨[(5, 5)], [⟨0, ⟨0, 0, 10, 10⟩, [], [], []⟩]⟩
/-- Current frame for the box-matcher theorem: one keypoint at `(50, 50)`
and two boxes; only box index 1 contains the keypoint. -/
def currF1 : DataFrame :=
  ⟨[(50, 50)],
   [⟨0, ⟨0, 0, 10, 10⟩, [], [], []⟩, ⟨1, ⟨40, 40, 20, 20⟩, [], [], []⟩]⟩
/-- The single correspondence linking the two keypoints above. -/
def msC1 : List DMatch := [⟨0, 0, 0⟩]

/-! Section: theorems. -/

/-- Claim C2: for every range point the pixel coordinate is `(u/w, v/w)`
where `[u, v, w]` is obtained from `[x, y, z, 1]` by applying the extrinsic
transform `RT`, then the rectification `R`, then the projection `P`, and
the divisor used for both pixel components — the source's `Y.at(0, 2)` —
is the third coordinate of that projected 3-vector. -/
theorem claim_C2 (P R RT : MatQ) (p : LidarPoint) :
    projectLidar P R RT p 0 = matApp P (matApp R (matApp RT (homog p))) 0 ∧
    projectLidar P R RT p 1 = matApp P (matApp R (matApp RT (homog p))) 1 ∧
    projectLidar P R RT p 2 = matApp P (matApp R (matApp RT (homog p))) 2 ∧
    cvAt3 (projectLidar P R RT p) 0 2 = projectLidar P R RT p 2 ∧
    pixelQ P R RT p =
      (projectLidar P R RT p 0 / projectLidar P R RT p 2,
       projectLidar P R RT p 1 / projectLidar P R RT p 2) := by
  refine ⟨?_, ?_, ?_, rfl, rfl⟩ <;>
    simp only [projectLidar, matApp, matMul] <;> ring
theorem setLidar_length (bs : List BoundingBox) (k : ℕ) (p : LidarPoint) :
    (setLidar bs k p).length = bs.length := by
  induction bs generalizing k with
  | nil => rfl
  | cons b bs ih => cases k with
    | zero => rfl
    | succ n => simpa [setLidar] using ih n
theorem setLidar_getD_roi (bs : List BoundingBox) (k i : ℕ) (p : LidarPoint) :
    ((setLidar bs k p).getD i emptyBox).roi = (bs.getD i emptyBox).roi := by
  induction bs generalizing k i with
  | nil => rfl
  | cons b bs ih =>
    cases k with
    | zero => cases i <;> simp [setLidar, List.getD]
    | succ n =>
      cases i with
      | zero => simp [setLidar, List.getD]
      | succ m => simpa [setLidar, List.getD] using ih n m
theorem setLidar_getD_kptMatches (bs : List BoundingBox) (k i : ℕ) (p : LidarPoint) :
    ((setLidar bs k p).getD i emptyBox).kptMatches = (bs.getD i emptyBox).kptMatches := by
  induction bs generalizing k i with
  | nil => rfl
  | cons b bs ih =>
    cases k with
    | zero => cases i <;> simp [setLidar, List.getD]
    | succ n =>
      cases i with
      | zero => simp [setLidar, List.getD]
      | succ m => simpa [setLidar, List.getD] using ih n m
theorem setLidar_getD_self (bs : List BoundingBox) (k : ℕ) (p : LidarPoint)
    (hk : k < bs.length) :
    ((setLidar bs k p).getD k emptyBox).lidarPoints
      = (bs.getD k emptyBox).lidarPoints ++ [p] := by
  induction bs generalizing k with
  | nil => simp at hk
  | cons b bs ih =>
    cases k with
    | zero => simp [setLidar, List.getD]
    | succ n =>
      have hn : n < bs.length := Nat.lt_of_succ_lt_succ hk
      simpa [setLidar, List.getD] using ih n hn
theorem setLidar_getD_other (bs : List BoundingBox) (k i : ℕ) (p : LidarPoint)
    (hik : i ≠ k) :
    ((setLidar bs k p).getD i emptyBox).lidarPoints
      = (bs.getD i emptyBox).lidarPoints := by
  induction bs generalizing k i with
  | nil => rfl
  | cons b bs ih =>
    cases k with
    | zero =>
      cases i with
      | zero => exact absurd rfl hik
      | succ m => simp [setLidar, List.getD]
    | succ n =>
      cases i with
      | zero => simp [setLidar, List.getD]
      | succ m =>
        have : m ≠ n := fun h => hik (by simp [h])
        simpa [setLidar, List.getD] using ih n m this
theorem enclosingIdxs_setLidar (bs : List BoundingBox) (k : ℕ) (p : LidarPoint)
    (shrinkFactor : ℚ) (pt : ℤ × ℤ) :
    enclosingIdxs (setLidar bs k p) shrinkFactor pt
      = enclosingIdxs bs shrinkFactor pt := by
  unfold enclosingIdxs
  rw [setLidar_length]
  exact List.filter_congr (fun i _ => by rw [setLidar_getD_roi])
theorem mem_enclosingIdxs_lt (bs : List BoundingBox) (shrinkFactor : ℚ)
    (pt : ℤ × ℤ) (i : ℕ) (h : i ∈ enclosingIdxs bs shrinkFactor pt) :
    i < bs.length := by
  have := List.mem_filter.mp h
  exact List.mem_range.mp this.1
theorem stepLidar_length (shrinkFactor : ℚ) (P R RT : MatQ)
    (bs : List BoundingBox) (p : LidarPoint) :
    (stepLidar shrinkFactor P R RT bs p).length = bs.length := by
  unfold stepLidar
  split <;> simp [setLidar_length]
theorem stepLidar_getD_roi (shrinkFactor : ℚ) (P R RT : MatQ)
    (bs : List BoundingBox) (p : LidarPoint) (i : ℕ) :
    ((stepLidar shrinkFactor P R RT bs p).getD i emptyBox).roi
      = (bs.getD i emptyBox).roi := by
  unfold stepLidar
  split
  · rw [setLidar_getD_roi]
  · rfl
theorem stepLidar_getD_kptMatches (shrinkFactor : ℚ) (P R RT : MatQ)
    (bs : List BoundingBox) (p : LidarPoint) (i : ℕ) :
    ((stepLidar shrinkFactor P R RT bs p).getD i emptyBox).kptMatches
      = (bs.getD i emptyBox).kptMatches := by
  unfold stepLidar
  split
  · rw [setLidar_getD_kptMatches]
  · rfl
theorem enclosingIdxs_stepLidar (shrinkFactor : ℚ) (P R RT : MatQ)
    (bs : List BoundingBox) (p : LidarPoint) (pt : ℤ × ℤ) :
    enclosingIdxs (stepLidar shrinkFactor P R RT bs p) shrinkFactor pt
      = enclosingIdxs bs shrinkFactor pt := by
  unfold stepLidar
  split <;> simp [enclosingIdxs_setLidar]
theorem stepLidar_getD_lidarPoints (shrinkFactor : ℚ) (P R RT : MatQ)
    (bs : List BoundingBox) (p : LidarPoint) (i : ℕ) :
    ((stepLidar shrinkFactor P R RT bs p).getD i emptyBox).lidarPoints
      = (bs.getD i emptyBox).lidarPoints ++
        (if enclosingIdxs bs shrinkFactor (pixelOf P R RT p) = [i] then [p] else []) := by
  by_cases h : (enclosingIdxs bs shrinkFactor (pixelOf P R RT p)).length = 1
  · obtain ⟨a, ha⟩ := List.length_eq_one.mp h
    have hmem : a ∈ enclosingIdxs bs shrinkFactor (pixelOf P R RT p) := by
      rw [ha]; exact List.mem_singleton_self a
    have halt : a < bs.length := mem_enclosingIdxs_lt _ _ _ _ hmem
    unfold stepLidar
    rw [if_pos h, ha]
    have hget : ([a] : List ℕ).getD 0 0 = a := rfl
    rw [hget]
    by_cases hia : i = a
    · subst hia
      rw [if_pos rfl]
      exact setLidar_getD_self _ _ _ halt
    · have hne : ([a] : List ℕ) ≠ [i] := by
        intro hcontra
        exact hia (List.singleton_injective hcontra).symm
      rw [if_neg hne, setLidar_getD_other bs a i p hia]
      simp
  · have hne : enclosingIdxs bs shrinkFactor (pixelOf P R RT p) ≠ [i] := by
      intro hcontra
      exact h (by rw [hcontra]; rfl)
    unfold stepLidar
    rw [if_neg h, if_neg hne]
    simp
theorem clusterLidar_foldl_getD (shrinkFactor : ℚ) (P R RT : MatQ) :
    ∀ (pts : List LidarPoint) (bs : List BoundingBox) (i : ℕ),
    ((List.foldl (stepLidar shrinkFactor P R RT) bs pts).getD i emptyBox).lidarPoints
      = (bs.getD i emptyBox).lidarPoints ++
        pts.filter (fun p => decide (enclosingIdxs bs shrinkFactor (pixelOf P R RT p) = [i]))
  | [], bs, i => by simp
  | p :: ps, bs, i => by
    rw [List.foldl_cons,
      clusterLidar_foldl_getD shrinkFactor P R RT ps (stepLidar shrinkFactor P R RT bs p) i]
    have henc : ∀ q : LidarPoint,
        enclosingIdxs (stepLidar shrinkFactor P R RT bs p) shrinkFactor (pixelOf P R RT q)
          = enclosingIdxs bs shrinkFactor (pixelOf P R RT q) :=
      fun q => enclosingIdxs_stepLidar shrinkFactor P R RT bs p (pixelOf P R RT q)
    have hfilter :
        ps.filter (fun q =>
            decide (enclosingIdxs (stepLidar shrinkFactor P R RT bs p) shrinkFactor
              (pixelOf P R RT q) = [i]))
          = ps.filter (fun q => decide (enclosingIdxs bs shrinkFactor (pixelOf P R RT q) = [i])) :=
      List.filter_congr (fun q _ => by rw [henc q])
    rw [hfilter, stepLidar_getD_lidarPoints]
    by_cases hp : enclosingIdxs bs shrinkFactor (pixelOf P R RT p) = [i] <;>
      simp [hp, List.filter_cons]
theorem clusterLidar_length (bs : List BoundingBox) (pts : List LidarPoint)
    (shrinkFactor : ℚ) (P R RT : MatQ) :
    (clusterLidarWithROI bs pts shrinkFactor P R RT).length = bs.length := by
  unfold clusterLidarWithROI
  induction pts generalizing bs with
  | nil => rfl
  | cons p ps ih => rw [List.foldl_cons, ih, stepLidar_length]
theorem clusterLidar_getD_roi (bs : List BoundingBox) (pts : List LidarPoint)
    (shrinkFactor : ℚ) (P R RT : MatQ) (i : ℕ) :
    ((clusterLidarWithROI bs pts shrinkFactor P R RT).getD i emptyBox).roi
      = (bs.getD i emptyBox).roi := by
  unfold clusterLidarWithROI
  induction pts generalizing bs with
  | nil => rfl
  | cons p ps ih => rw [List.foldl_cons, ih, stepLidar_getD_roi]
theorem clusterLidar_getD_kptMatches (bs : List BoundingBox) (pts : List LidarPoint)
    (shrinkFactor : ℚ) (P R RT : MatQ) (i : ℕ) :
    ((clusterLidarWithROI bs pts shrinkFactor P R RT).getD i emptyBox).kptMatches
      = (bs.getD i emptyBox).kptMatches := by
  unfold clusterLidarWithROI
  induction pts generalizing bs with
  | nil => rfl
  | cons p ps ih => rw [List.foldl_cons, ih, stepLidar_getD_kptMatches]
theorem nodup_all_eq_singleton {l : List ℕ} {i : ℕ} (hnd : l.Nodup)
    (hmem : i ∈ l) (hall : ∀ j ∈ l, j = i) : l = [i] := by
  cases l with
  | nil => cases hmem
  | cons a t =>
    have ha : a = i := hall a (List.mem_cons_self a t)
    subst ha
    have ht : t = [] := by
      refine List.eq_nil_iff_forall_not_mem.mpr (fun b hb => ?_)
      have hba : b = a := hall b (List.mem_cons_of_mem a hb)
      subst hba
      exact (List.nodup_cons.mp hnd).1 hb
    rw [ht]
theorem enclosingIdxs_eq_singleton_iff (bs : List BoundingBox)
    (shrinkFactor : ℚ) (pt : ℤ × ℤ) (i : ℕ) :
    enclosingIdxs bs shrinkFactor pt = [i] ↔
      (i < bs.length ∧
       rectContainsI (shrinkRect shrinkFactor ((bs.getD i emptyBox).roi)) pt = true ∧
       ∀ j, j < bs.length →
         rectContainsI (shrinkRect shrinkFactor ((bs.getD j emptyBox).roi)) pt = true →
         j = i) := by
  constructor
  · intro h
    have hmem : i ∈ enclosingIdxs bs shrinkFactor pt := by
      rw [h]; exact List.mem_singleton_self i
    have h1 := List.mem_filter.mp hmem
    refine ⟨List.mem_range.mp h1.1, h1.2, fun j hj hcont => ?_⟩
    have : j ∈ enclosingIdxs bs shrinkFactor pt :=
      List.mem_filter.mpr ⟨List.mem_range.mpr hj, hcont⟩
    rw [h] at this
    exact List.mem_singleton.mp this
  · rintro ⟨hi, hcont, huniq⟩
    refine nodup_all_eq_singleton (List.Nodup.filter _ (List.nodup_range _)) ?_ ?_
    · exact List.mem_filter.mpr ⟨List.mem_range.mpr hi, hcont⟩
    · intro j hj
      have h1 := List.mem_filter.mp hj
      exact huniq j (List.mem_range.mp h1.1) h1.2
/-- Claim C9: `clusterLidarWithROI` attaches every range point to at most
one bounding box: box `i` receives (appended to its `lidarPoints`) exactly
the points whose enclosing-box list is the singleton `[i]`, and that list
equals `[i]` precisely when box `i` is the unique box whose shrunk region
contains the point's projected pixel; a pixel contained in zero or in two
or more shrunk regions is attached to no box.  The function is total: a
drop raises no error. -/
theorem claim_C9 (bs : List BoundingBox) (pts : List LidarPoint)
    (shrinkFactor : ℚ) (P R RT : MatQ) :
    (clusterLidarWithROI bs pts shrinkFactor P R RT).length = bs.length ∧
    (∀ i, ((clusterLidarWithROI bs pts shrinkFactor P R RT).getD i emptyBox).lidarPoints
      = (bs.getD i emptyBox).lidarPoints ++
        pts.filter (fun p => decide (enclosingIdxs bs shrinkFactor (pixelOf P R RT p) = [i]))) ∧
    (∀ pt i, enclosingIdxs bs shrinkFactor pt = [i] ↔
      (i < bs.length ∧
       rectContainsI (shrinkRect shrinkFactor ((bs.getD i emptyBox).roi)) pt = true ∧
       ∀ j, j < bs.length →
         rectContainsI (shrinkRect shrinkFactor ((bs.getD j emptyBox).roi)) pt = true →
         j = i)) :=
  ⟨clusterLidar_length bs pts shrinkFactor P R RT,
   fun i => clusterLidar_foldl_getD shrinkFactor P R RT pts bs i,
   fun pt i => enclosingIdxs_eq_singleton_iff bs shrinkFactor pt i⟩
/-- Claim C3 (refuting evaluation): the source has no guard on the
homogeneous scale: with a projection matrix whose third row is zero the
divisor `Y.at(0, 2)` is exactly `0`, yet the point still flows through the
unguarded division (line 32–33; in the exact-arithmetic model `q / 0 = 0`,
in IEEE arithmetic the quotient is infinite or NaN and the `double → int`
conversion is undefined) and on into box association, where it is attached
to a bounding box rather than skipped. -/
theorem claim_C3 :
    cvAt3 (projectLidar projDeg idMat4 idMat4 ptDeg) 0 2 = 0 ∧
    clusterLidarWithROI [boxA] [ptDeg] 0 projDeg idMat4 idMat4 =
      [{ boxA with lidarPoints := [ptDeg] }] := by
  have hY0 : projectLidar projDeg idMat4 idMat4 ptDeg 0 = 3 := by
    norm_num [projectLidar, matApp, matMul, homog, projDeg, idMat4, ptDeg]
  have hY1 : projectLidar projDeg idMat4 idMat4 ptDeg 1 = 4 := by
    norm_num [projectLidar, matApp, matMul, homog, projDeg, idMat4, ptDeg]
  have hY2 : projectLidar projDeg idMat4 idMat4 ptDeg 2 = 0 := by
    norm_num [projectLidar, matApp, matMul, homog, projDeg, idMat4, ptDeg]
  have hat : cvAt3 (projectLidar projDeg idMat4 idMat4 ptDeg) 0 2 = 0 := hY2
  refine ⟨hat, ?_⟩
  have hpix : pixelOf projDeg idMat4 idMat4 ptDeg = (0, 0) := by
    unfold pixelOf pixelQ
    have h00 : cvAt3 (projectLidar projDeg idMat4 idMat4 ptDeg) 0 0 = 3 := hY0
    have h10 : cvAt3 (projectLidar projDeg idMat4 idMat4 ptDeg) 1 0 = 4 := hY1
    rw [h00, h10, hat]
    norm_num [truncQ]
  have hcont : rectContainsI (shrinkRect 0 boxA.roi) (0 : ℤ × ℤ) = true := by
    norm_num [rectContainsI, shrinkRect, truncQ, boxA, Prod.fst_zero, Prod.snd_zero]
  have henc : enclosingIdxs [boxA] 0 (0, 0) = [0] := by
    simp [enclosingIdxs, List.range_succ, List.getD, hcont]
  unfold clusterLidarWithROI
  rw [List.foldl_cons, List.foldl_nil]
  unfold stepLidar
  rw [hpix, henc]
  norm_num [setLidar, boxA, List.getD]
theorem foldl_push_eq_filterMap {α β : Type} (c : α → Prop) [DecidablePred c] (g : α → β) :
    ∀ (l : List α) (init : List β),
      l.foldl (fun acc x => if c x then acc ++ [g x] else acc) init
        = init ++ l.filterMap (fun x => if c x then some (g x) else none)
  | [], init => by simp
  | x :: xs, init => by
    by_cases hx : c x
    · rw [List.foldl_cons, if_pos hx,
        foldl_push_eq_filterMap c g xs (init ++ [g x])]
      simp [hx]
    · rw [List.foldl_cons, if_neg hx, foldl_push_eq_filterMap c g xs init]
      simp [hx]
theorem foldl_append_eq_flatMap {α β : Type} (f : α → List β) :
    ∀ (l : List α) (init : List β),
      l.foldl (fun acc x => acc ++ f x) init = init ++ l.flatMap f
  | [], init => by simp
  | x :: xs, init => by
    rw [List.foldl_cons, foldl_append_eq_flatMap f xs (init ++ f x)]
    simp
theorem distRatiosSq_eq_spec (kptsPrev kptsCurr : List KeyPoint)
    (kptMatches : List DMatch) :
    distRatiosSq kptsPrev kptsCurr kptMatches
      = distRatiosSqSpec kptsPrev kptsCurr kptMatches := by
  unfold distRatiosSq distRatiosSqSpec
  have hinner : (fun (acc : List ℚ) (m1 : DMatch) =>
      kptMatches.tail.foldl (fun acc2 m2 =>
        if ratioCondSq kptsPrev kptsCurr m1 m2 then
          acc2 ++ [ratioSq kptsPrev kptsCurr m1 m2]
        else acc2) acc)
      = (fun (acc : List ℚ) (m1 : DMatch) =>
        acc ++ kptMatches.tail.filterMap (fun m2 =>
          if ratioCondSq kptsPrev kptsCurr m1 m2 then
            some (ratioSq kptsPrev kptsCurr m1 m2)
          else none)) := by
    funext acc m1
    exact foldl_push_eq_filterMap _ _ _ _
  rw [hinner, foldl_append_eq_flatMap]
  rfl
theorem sqDist_self (p : KeyPoint) : sqDist p p = 0 := by
  simp [sqDist]
theorem ratioCondSq_self_false (kptsPrev kptsCurr : List KeyPoint) (m : DMatch) :
    ¬ ratioCondSq kptsPrev kptsCurr m m := by
  intro h
  have h1 := h.1
  rw [sqDist_self] at h1
  have : (0 : ℚ) < dblEps ^ 2 := by norm_num [dblEps]
  exact absurd h1 (not_lt.mpr this.le)
theorem getD_mem_dropLast (l : List DMatch) (i : ℕ) (d : DMatch)
    (h : i < l.length - 1) :
    l.getD i d ∈ l.dropLast := by
  have hlen : i < l.dropLast.length := by
    simpa [List.length_dropLast] using h
  have hvals : l.dropLast.getD i d = l.getD i d := by
    rw [List.getD_eq_getElem?_getD, List.getD_eq_getElem?_getD,
      List.getElem?_dropLast]
    simp [h]
  rw [← hvals]
  rw [List.getD_eq_getElem?_getD, List.getElem?_eq_getElem hlen]
  exact List.getElem_mem hlen
theorem getD_mem_tail (l : List DMatch) (j : ℕ) (d : DMatch)
    (h1 : 1 ≤ j) (h2 : j < l.length) :
    l.getD j d ∈ l.tail := by
  cases l with
  | nil => simp at h2
  | cons a t =>
    cases j with
    | zero => simp at h1
    | succ m =>
      have hm : m < t.length := Nat.lt_of_succ_lt_succ h2
      have : (a :: t).getD (m + 1) d = t.getD m d := by simp [List.getD]
      rw [this, List.getD_eq_getElem?_getD, List.getElem?_eq_getElem hm]
      exact List.getElem_mem hm
/-- Claim C4, amended: the ratio loops of lines 198–225 enumerate ordered
pairs `(it1, it2)` with `it1` over all but the last correspondence
(`[begin, end-1)`) and `it2` over all but the first (`[begin+1, end)`) —
not unordered pairs.  Hence: one ratio is recorded per enumerated ordered
pair satisfying the condition of line 218 (the comprehension equality); a
correspondence paired with itself never qualifies (its previous-frame
distance is `0`, not above machine epsilon); and every qualifying unordered
pair `{i, j}` contributes at least one ratio — but pairs whose two members
are both interior are enumerated in both orders and contribute two. -/
theorem claim_C4 :
    (∀ (kptsPrev kptsCurr : List KeyPoint) (kptMatches : List DMatch),
      distRatiosSq kptsPrev kptsCurr kptMatches
        = distRatiosSqSpec kptsPrev kptsCurr kptMatches) ∧
    (∀ (kptsPrev kptsCurr : List KeyPoint) (m : DMatch),
      ¬ ratioCondSq kptsPrev kptsCurr m m) ∧
    (∀ (kptsPrev kptsCurr : List KeyPoint) (kptMatches : List DMatch) (i j : ℕ),
      i < j → j < kptMatches.length →
      ratioCondSq kptsPrev kptsCurr (kptMatches.getD i ⟨0, 0, 0⟩)
        (kptMatches.getD j ⟨0, 0, 0⟩) →
      ratioSq kptsPrev kptsCurr (kptMatches.getD i ⟨0, 0, 0⟩)
          (kptMatches.getD j ⟨0, 0, 0⟩)
        ∈ distRatiosSq kptsPrev kptsCurr kptMatches) := by
  refine ⟨distRatiosSq_eq_spec, ratioCondSq_self_false, ?_⟩
  intro kptsPrev kptsCurr kptMatches i j hij hj hcond
  rw [distRatiosSq_eq_spec]
  unfold distRatiosSqSpec
  refine List.mem_flatMap.mpr ⟨kptMatches.getD i ⟨0, 0, 0⟩, ?_, ?_⟩
  · exact getD_mem_dropLast kptMatches i _ (by omega)
  · refine List.mem_filterMap.mpr ⟨kptMatches.getD j ⟨0, 0, 0⟩, ?_, ?_⟩
    · exact getD_mem_tail kptMatches j _ (by omega) hj
    · rw [if_pos hcond]
/-- Claim C4 counterexample: with four correspondences whose pairwise
current distances are exactly 100 times the previous ones, every one of
the 6 unordered pairs of distinct correspondences qualifies, yet 7 ratios
are recorded — the interior unordered pair is enumerated in both orders —
so "exactly one ratio per qualifying unordered pair" fails. -/
theorem claim_C4_counterexample :
    (distRatiosSq kPrev4 kCurr4 ms4).length = 7 ∧
    (qualifyingPairs kPrev4 kCurr4 ms4).length = 6 := by
  constructor
  · norm_num [distRatiosSq, ratioCondSq, ratioSq, sqDist, dblEps, ms4, kPrev4,
      kCurr4, List.getD, List.dropLast, List.foldl]
  · norm_num [qualifyingPairs, ratioCondSq, sqDist, dblEps, ms4, kPrev4,
      kCurr4, List.getD, List.range_succ, List.filter, List.filterMap,
      List.flatMap]
/-- Witness for C4: the membership conjunct applied at the concrete input,
pair `(0, 1)` of the four correspondences. -/
theorem claim_C4_witness :
    (0 : ℕ) < 1 ∧ (1 : ℕ) < ms4.length ∧
    ratioCondSq kPrev4 kCurr4 (ms4.getD 0 ⟨0, 0, 0⟩) (ms4.getD 1 ⟨0, 0, 0⟩) ∧
    ratioSq kPrev4 kCurr4 (ms4.getD 0 ⟨0, 0, 0⟩) (ms4.getD 1 ⟨0, 0, 0⟩)
      ∈ distRatiosSq kPrev4 kCurr4 ms4 := by
  have hcond : ratioCondSq kPrev4 kCurr4 (ms4.getD 0 ⟨0, 0, 0⟩) (ms4.getD 1 ⟨0, 0, 0⟩) := by
    norm_num [ratioCondSq, sqDist, dblEps, ms4, kPrev4, kCurr4, List.getD]
  refine ⟨Nat.zero_lt_one, by norm_num [ms4], hcond, ?_⟩
  exact claim_C4.2.2 kPrev4 kCurr4 ms4 0 1 Nat.zero_lt_one (by norm_num [ms4]) hcond
theorem distRatiosSq_nil (kptsPrev kptsCurr : List KeyPoint) :
    distRatiosSq kptsPrev kptsCurr [] = [] := rfl
/-- Claim C5: `computeTTCCamera` yields not-a-number (`none`) exactly when
the correspondence set is empty or no distance ratio was recorded
(lines 192–196 and 228–232); otherwise it yields
`TTC = -dT / (1 - m)` where `m` is the median of the recorded ratios (the
square roots of the squared ratios the embedding carries) and
`dT = 1/frameRate` (lines 234–237). -/
theorem claim_C5 (kptsPrev kptsCurr : List KeyPoint) (kptMatches : List DMatch)
    (frameRate : ℚ) :
    (computeTTCCamera kptsPrev kptsCurr kptMatches frameRate = none ↔
      kptMatches = [] ∨ distRatiosSq kptsPrev kptsCurr kptMatches = []) ∧
    (distRatiosSq kptsPrev kptsCurr kptMatches ≠ [] →
      computeTTCCamera kptsPrev kptsCurr kptMatches frameRate
        = some (-(1 / (frameRate : ℝ)) /
            (1 - median ((distRatiosSq kptsPrev kptsCurr kptMatches).map
              (fun q => Real.sqrt (q : ℝ)))))) := by
  unfold computeTTCCamera
  by_cases hm : kptMatches.length = 0
  · have hnil : kptMatches = [] := List.length_eq_zero.mp hm
    subst hnil
    simp [distRatiosSq_nil]
  · rw [if_neg hm]
    by_cases hr : (distRatiosSq kptsPrev kptsCurr kptMatches).length = 0
    · have hrnil := List.length_eq_zero.mp hr
      simp [hr, hrnil]
    · have hrne : distRatiosSq kptsPrev kptsCurr kptMatches ≠ [] :=
        fun h => hr (by rw [h]; rfl)
      have hmne : kptMatches ≠ [] := fun h => hm (by rw [h]; rfl)
      rw [if_neg hr]
      simp [hmne, hrne]
/-- Witness for C5: at two correspondences with previous distance `1` and
current distance `100` exactly one (squared) ratio is recorded, and the
camera TTC takes the formula branch. -/
theorem claim_C5_witness :
    distRatiosSq kPrev2 kCurr2 ms2 ≠ [] ∧
    computeTTCCamera kPrev2 kCurr2 ms2 10
      = some (-(1 / ((10 : ℚ) : ℝ)) /
          (1 - median ((distRatiosSq kPrev2 kCurr2 ms2).map
            (fun q => Real.sqrt (q : ℝ))))) := by
  have hne : distRatiosSq kPrev2 kCurr2 ms2 ≠ [] := by
    norm_num [distRatiosSq, ratioCondSq, ratioSq, sqDist, dblEps, ms2, kPrev2,
      kCurr2, List.getD, List.dropLast, List.foldl]
  exact ⟨hne, (claim_C5 kPrev2 kCurr2 ms2 10).2 hne⟩
/-- Claim C6, amended: `computeTTCLidar` filters each frame's points to
`|y| ≤ 2.0` (half the assumed lane width of `4.0`, lines 246 and 254/260),
yields not-a-number (`none`) when either filtered set is empty
(lines 264–273), and otherwise returns
`TTC = x̄_curr × dT / (x̄_prev − x̄_curr)` with `dT = 1/frameRate`
(line 276); at `x̄_prev = 10`, `x̄_curr = 9`, `frameRate = 10` the formula
gives `TTC = 9 × (1/10) / 1 = 0.9`, not the `9.0` the claim states. -/
theorem claim_C6 :
    (∀ lidarPointsPrev : List LidarPoint,
      inLaneX lidarPointsPrev
        = (lidarPointsPrev.filter (fun p => decide (|p.y| ≤ (2 : ℚ)))).map LidarPoint.x) ∧
    (∀ (lidarPointsPrev lidarPointsCurr : List LidarPoint) (frameRate : ℚ),
      (computeTTCLidar lidarPointsPrev lidarPointsCurr frameRate = none ↔
        inLaneX lidarPointsPrev = [] ∨ inLaneX lidarPointsCurr = [])) ∧
    (∀ (lidarPointsPrev lidarPointsCurr : List LidarPoint) (frameRate : ℚ),
      inLaneX lidarPointsPrev ≠ [] → inLaneX lidarPointsCurr ≠ [] →
      computeTTCLidar lidarPointsPrev lidarPointsCurr frameRate
        = some ((inLaneX lidarPointsCurr).sum / ((inLaneX lidarPointsCurr).length : ℚ) *
              (1 / frameRate) /
            ((inLaneX lidarPointsPrev).sum / ((inLaneX lidarPointsPrev).length : ℚ) -
              (inLaneX lidarPointsCurr).sum / ((inLaneX lidarPointsCurr).length : ℚ)))) ∧
    computeTTCLidar lpPrev10 lpCurr9 10 = some (9 / 10) := by
  have hhalf : ∀ lidarPointsPrev : List LidarPoint,
      inLaneX lidarPointsPrev
        = (lidarPointsPrev.filter (fun p => decide (|p.y| ≤ (2 : ℚ)))).map LidarPoint.x := by
    intro l
    unfold inLaneX
    norm_num
  refine ⟨hhalf, ?_, ?_, ?_⟩
  · intro pp pc fr
    unfold computeTTCLidar
    by_cases h : 0 < (inLaneX pp).length ∧ 0 < (inLaneX pc).length
    · rw [if_pos h]
      simp only [reduceCtorEq, false_iff]
      push_neg
      exact ⟨fun hh => by simp [hh] at h, fun hh => by simp [hh] at h⟩
    · rw [if_neg h]
      simp only [true_iff]
      rcases Decidable.not_and_iff_or_not.mp h with h1 | h1
      · exact Or.inl (by simpa using List.length_eq_zero.mp (by omega))
      · exact Or.inr (by simpa using List.length_eq_zero.mp (by omega))
  · intro pp pc fr h1 h2
    unfold computeTTCLidar
    rw [if_pos ⟨List.length_pos.mpr h1, List.length_pos.mpr h2⟩]
  · norm_num [computeTTCLidar, inLaneX, lpPrev10, lpCurr9, List.filter]
/-- Claim C6 counterexample: at in-lane means `x̄_prev = 10`, `x̄_curr = 9`
and `frameRate = 10` the code returns `0.9`, not the claimed `9.0`. -/
theorem claim_C6_counterexample :
    computeTTCLidar lpPrev10 lpCurr9 10 = some (9 / 10) ∧ ((9 : ℚ) / 10) ≠ 9 := by
  constructor
  · norm_num [computeTTCLidar, inLaneX, lpPrev10, lpCurr9, List.filter]
  · norm_num
/-- Witness for C6: the formula conjunct applied at the concrete
measurement. -/
theorem claim_C6_witness :
    inLaneX lpPrev10 ≠ [] ∧ inLaneX lpCurr9 ≠ [] ∧
    computeTTCLidar lpPrev10 lpCurr9 10
      = some ((inLaneX lpCurr9).sum / ((inLaneX lpCurr9).length : ℚ) * (1 / 10) /
          ((inLaneX lpPrev10).sum / ((inLaneX lpPrev10).length : ℚ) -
            (inLaneX lpCurr9).sum / ((inLaneX lpCurr9).length : ℚ))) := by
  have h1 : inLaneX lpPrev10 ≠ [] := by
    norm_num [inLaneX, lpPrev10, List.filter]
  have h2 : inLaneX lpCurr9 ≠ [] := by
    norm_num [inLaneX, lpCurr9, List.filter]
  exact ⟨h1, h2, claim_C6.2.2.1 lpPrev10 lpCurr9 10 h1 h2⟩
theorem mergeSort_eq_of_sorted (l s : List ℚ) (hperm : s.Perm l)
    (hsort : s.Sorted (· ≤ ·)) :
    l.mergeSort (fun a b => decide (a ≤ b)) = s := by
  refine List.eq_of_perm_of_sorted ((List.mergeSort_perm l _).trans hperm.symm) ?_ hsort
  have h := @List.sorted_mergeSort ℚ (fun a b => decide (a ≤ b))
    (fun a b c hab hbc => by
      simp only [decide_eq_true_eq] at *
      exact le_trans hab hbc)
    (fun a b => by
      simp only [Bool.or_eq_true, decide_eq_true_eq]
      exact le_total a b) l
  simpa [List.Sorted, decide_eq_true_eq] using h
/-- Claim C7: for a non-empty sequence, `median` returns the element at
index `n/2` of the full ascending sort when the length `n` is odd, and the
average of the elements at indices `n/2 - 1` and `n/2` when `n` is even
(the sort being unique, any sorted permutation of the input gives the same
answer); the empty sequence returns exactly `0`. -/
theorem claim_C7 :
    (∀ (l s : List ℚ), s.Perm l → s.Sorted (· ≤ ·) → l ≠ [] →
      median l = if l.length % 2 = 1 then s.getD (l.length / 2) 0
        else (s.getD (l.length / 2 - 1) 0 + s.getD (l.length / 2) 0) / 2) ∧
    median ([] : List ℚ) = 0 := by
  constructor
  · intro l s hperm hsort hne
    have hms := mergeSort_eq_of_sorted l s hperm hsort
    unfold median
    rw [if_neg (fun h => hne (List.length_eq_zero.mp h)), hms]
    by_cases hpar : l.length % 2 = 0
    · rw [if_pos hpar, if_neg (by omega), add_comm]
    · rw [if_neg hpar, if_pos (by omega)]
  · rfl
/-- Witness for C7: the sorted list `[1, 2, 3]` is a sorted permutation of
itself, and the median of the three elements is the middle one. -/
theorem claim_C7_witness :
    ([(1 : ℚ), 2, 3] : List ℚ).Perm [1, 2, 3] ∧
    List.Sorted (· ≤ ·) [(1 : ℚ), 2, 3] ∧
    ([(1 : ℚ), 2, 3] : List ℚ) ≠ [] ∧
    median [(1 : ℚ), 2, 3] = 2 := by
  have hsort : List.Sorted (· ≤ ·) [(1 : ℚ), 2, 3] := by
    norm_num [List.sorted_cons]
  have h := claim_C7.1 [1, 2, 3] [1, 2, 3] (List.Perm.refl _) hsort (by simp)
  refine ⟨List.Perm.refl _, hsort, by simp, ?_⟩
  norm_num [List.getD] at h
  exact h
theorem clusterKpt_kptMatches (boundingBox : BoundingBox)
    (kptsPrev kptsCurr : List KeyPoint) (kptMatches : List DMatch) :
    (clusterKptMatchesWithROI boundingBox kptsPrev kptsCurr kptMatches).kptMatches
      = boundingBox.kptMatches ++ kptSuffix boundingBox kptsCurr kptMatches := by
  unfold clusterKptMatchesWithROI kptSuffix
  split
  · rfl
  · simp
theorem clusterKpt_roi (boundingBox : BoundingBox)
    (kptsPrev kptsCurr : List KeyPoint) (kptMatches : List DMatch) :
    (clusterKptMatchesWithROI boundingBox kptsPrev kptsCurr kptMatches).roi
      = boundingBox.roi := by
  unfold clusterKptMatchesWithROI
  split <;> rfl
theorem kptMatchesROI_roi_eq (b b' : BoundingBox) (h : b'.roi = b.roi)
    (kptsCurr : List KeyPoint) (kptMatches : List DMatch) :
    kptMatchesROI b' kptsCurr kptMatches = kptMatchesROI b kptsCurr kptMatches := by
  unfold kptMatchesROI
  rw [h]
theorem kptSuffix_roi_eq (b b' : BoundingBox) (h : b'.roi = b.roi)
    (kptsCurr : List KeyPoint) (kptMatches : List DMatch) :
    kptSuffix b' kptsCurr kptMatches = kptSuffix b kptsCurr kptMatches := by
  unfold kptSuffix kptThreshold
  rw [kptMatchesROI_roi_eq b b' h]
theorem sum_map_distance_const (d : ℚ) :
    ∀ l : List DMatch, (∀ m ∈ l, m.distance = d) →
      (l.map DMatch.distance).sum = l.length * d
  | [], _ => by simp
  | a :: t, hall => by
    have ha : a.distance = d := hall a (List.mem_cons_self a t)
    have ht := sum_map_distance_const d t (fun m hm => hall m (List.mem_cons_of_mem a hm))
    simp only [List.map_cons, List.sum_cons, ht, ha, List.length_cons]
    push_cast
    ring
/-- Claim C8: `clusterKptMatchesWithROI` keeps the correspondences whose
current keypoint lies in the box's unshrunk region; if that filtered set is
empty the box is returned untouched (so initially empty `kptMatches` stays
empty); otherwise exactly the filtered correspondences with
`distance < 0.8 × mean distance` are appended to the box's `kptMatches`;
consequently when every filtered correspondence has one identical
(nonnegative) distance, none is retained. -/
theorem claim_C8 (boundingBox : BoundingBox) (kptsPrev kptsCurr : List KeyPoint)
    (kptMatches : List DMatch) :
    ((kptMatchesROI boundingBox kptsCurr kptMatches).length = 0 →
      clusterKptMatchesWithROI boundingBox kptsPrev kptsCurr kptMatches = boundingBox) ∧
    (0 < (kptMatchesROI boundingBox kptsCurr kptMatches).length →
      (clusterKptMatchesWithROI boundingBox kptsPrev kptsCurr kptMatches).kptMatches
        = boundingBox.kptMatches ++
          (kptMatchesROI boundingBox kptsCurr kptMatches).filter
            (fun m => decide (m.distance < kptThreshold boundingBox kptsCurr kptMatches))) ∧
    (∀ d : ℚ, 0 ≤ d →
      (∀ m ∈ kptMatchesROI boundingBox kptsCurr kptMatches, m.distance = d) →
      (clusterKptMatchesWithROI boundingBox kptsPrev kptsCurr kptMatches).kptMatches
        = boundingBox.kptMatches) := by
  refine ⟨?_, ?_, ?_⟩
  · intro h
    unfold clusterKptMatchesWithROI
    rw [if_neg (by omega)]
  · intro h
    unfold clusterKptMatchesWithROI
    rw [if_pos h]
  · intro d hd hall
    rw [clusterKpt_kptMatches]
    suffices hsfx : kptSuffix boundingBox kptsCurr kptMatches = [] by
      rw [hsfx, List.append_nil]
    unfold kptSuffix
    by_cases h : 0 < (kptMatchesROI boundingBox kptsCurr kptMatches).length
    · rw [if_pos h]
      refine List.filter_eq_nil_iff.mpr (fun m hm => ?_)
      have hmd : m.distance = d := hall m hm
      have hsum := sum_map_distance_const d _ hall
      have hlen : ((kptMatchesROI boundingBox kptsCurr kptMatches).length : ℚ) ≠ 0 := by
        exact_mod_cast Nat.pos_iff_ne_zero.mp h
      have hthr : kptThreshold boundingBox kptsCurr kptMatches = d * (8 / 10) := by
        unfold kptThreshold
        rw [hsum, mul_div_cancel_left₀ d hlen]
      have hle : d * (8 / 10) ≤ d := by
        calc d * (8 / 10) ≤ d * 1 :=
              mul_le_mul_of_nonneg_left (by norm_num) hd
          _ = d := mul_one d
      simp only [hmd, hthr]
      simpa using not_lt.mpr hle
    · rw [if_neg h]
/-- Witness for C8: with in-box distances 1 and 3 (mean 2, threshold 1.6)
only the distance-1 correspondence is kept; with two identical distances 5
nothing is kept. -/
theorem claim_C8_witness :
    0 < (kptMatchesROI boxK kCurrK msK).length ∧
    (clusterKptMatchesWithROI boxK [] kCurrK msK).kptMatches
      = [⟨0, 0, 1⟩] ∧
    (0 : ℚ) ≤ 5 ∧
    (∀ m ∈ kptMatchesROI boxK kCurrK msKsame, m.distance = 5) ∧
    (clusterKptMatchesWithROI boxK [] kCurrK msKsame).kptMatches = [] := by
  have hroi : kptMatchesROI boxK kCurrK msK = [⟨0, 0, 1⟩, ⟨1, 1, 3⟩] := by
    norm_num [kptMatchesROI, rectContainsQ, boxK, kCurrK, msK, List.getD,
      List.filter]
  have hpos : 0 < (kptMatchesROI boxK kCurrK msK).length := by
    rw [hroi]; norm_num
  have hthr : kptThreshold boxK kCurrK msK = 8 / 5 := by
    unfold kptThreshold
    rw [hroi]
    norm_num [List.map_cons, List.sum_cons, List.sum_nil]
  have hbk : boxK.kptMatches = [] := rfl
  have hform := (claim_C8 boxK [] kCurrK msK).2.1 hpos
  have hroiS : kptMatchesROI boxK kCurrK msKsame = msKsame := by
    norm_num [kptMatchesROI, rectContainsQ, boxK, kCurrK, msKsame, List.getD,
      List.filter]
  have hall : ∀ m ∈ kptMatchesROI boxK kCurrK msKsame, m.distance = 5 := by
    rw [hroiS]
    intro m hm
    simp only [msKsame, List.mem_cons, List.not_mem_nil, or_false] at hm
    rcases hm with h | h <;> subst h <;> rfl
  have hsame := (claim_C8 boxK [] kCurrK msKsame).2.2 5 (by norm_num) hall
  refine ⟨hpos, ?_, by norm_num, hall, by rw [hsame, hbk]⟩
  rw [hform, hroi, hbk]
  norm_num [hthr, List.filter]
theorem enclosingIdxs_clusterLidar (bs : List BoundingBox) (pts : List LidarPoint)
    (shrinkFactor : ℚ) (P R RT : MatQ) (sf : ℚ) (pt : ℤ × ℤ) :
    enclosingIdxs (clusterLidarWithROI bs pts shrinkFactor P R RT) sf pt
      = enclosingIdxs bs sf pt := by
  unfold enclosingIdxs
  rw [clusterLidar_length]
  exact List.filter_congr (fun i _ => by rw [clusterLidar_getD_roi])
/-- Claim C10: both associators are additive.  `clusterLidarWithROI` and
`clusterKptMatchesWithROI` only append to a box's `lidarPoints` /
`kptMatches`: the pre-call contents are a prefix of the post-call contents,
and re-running either operation on its own output with the same inputs
appends the same block a second time (duplicates), rather than resetting. -/
theorem claim_C10 :
    (∀ (bs : List BoundingBox) (pts : List LidarPoint) (shrinkFactor : ℚ)
        (P R RT : MatQ) (i : ℕ),
      ((clusterLidarWithROI bs pts shrinkFactor P R RT).getD i emptyBox).lidarPoints
        = (bs.getD i emptyBox).lidarPoints ++
          pts.filter (fun p =>
            decide (enclosingIdxs bs shrinkFactor (pixelOf P R RT p) = [i])) ∧
      ((clusterLidarWithROI (clusterLidarWithROI bs pts shrinkFactor P R RT)
          pts shrinkFactor P R RT).getD i emptyBox).lidarPoints
        = (bs.getD i emptyBox).lidarPoints ++
          pts.filter (fun p =>
            decide (enclosingIdxs bs shrinkFactor (pixelOf P R RT p) = [i])) ++
          pts.filter (fun p =>
            decide (enclosingIdxs bs shrinkFactor (pixelOf P R RT p) = [i]))) ∧
    (∀ (boundingBox : BoundingBox) (kptsPrev kptsCurr : List KeyPoint)
        (kptMatches : List DMatch),
      (clusterKptMatchesWithROI boundingBox kptsPrev kptsCurr kptMatches).kptMatches
        = boundingBox.kptMatches ++ kptSuffix boundingBox kptsCurr kptMatches ∧
      (clusterKptMatchesWithROI
          (clusterKptMatchesWithROI boundingBox kptsPrev kptsCurr kptMatches)
          kptsPrev kptsCurr kptMatches).kptMatches
        = boundingBox.kptMatches ++ kptSuffix boundingBox kptsCurr kptMatches ++
          kptSuffix boundingBox kptsCurr kptMatches) := by
  constructor
  · intro bs pts shrinkFactor P R RT i
    have h1 : ((clusterLidarWithROI bs pts shrinkFactor P R RT).getD i
          emptyBox).lidarPoints
        = (bs.getD i emptyBox).lidarPoints ++
          pts.filter (fun p =>
            decide (enclosingIdxs bs shrinkFactor (pixelOf P R RT p) = [i])) :=
      clusterLidar_foldl_getD shrinkFactor P R RT pts bs i
    refine ⟨h1, ?_⟩
    have h2 : ((clusterLidarWithROI (clusterLidarWithROI bs pts shrinkFactor P R RT)
          pts shrinkFactor P R RT).getD i emptyBox).lidarPoints
        = ((clusterLidarWithROI bs pts shrinkFactor P R RT).getD i
            emptyBox).lidarPoints ++
          pts.filter (fun p =>
            decide (enclosingIdxs (clusterLidarWithROI bs pts shrinkFactor P R RT)
              shrinkFactor (pixelOf P R RT p) = [i])) :=
      clusterLidar_foldl_getD shrinkFactor P R RT pts
        (clusterLidarWithROI bs pts shrinkFactor P R RT) i
    have hfc : pts.filter (fun p =>
        decide (enclosingIdxs (clusterLidarWithROI bs pts shrinkFactor P R RT)
          shrinkFactor (pixelOf P R RT p) = [i]))
        = pts.filter (fun p =>
          decide (enclosingIdxs bs shrinkFactor (pixelOf P R RT p) = [i])) :=
      List.filter_congr (fun p _ => by rw [enclosingIdxs_clusterLidar])
    calc ((clusterLidarWithROI (clusterLidarWithROI bs pts shrinkFactor P R RT)
            pts shrinkFactor P R RT).getD i emptyBox).lidarPoints
        = ((clusterLidarWithROI bs pts shrinkFactor P R RT).getD i
            emptyBox).lidarPoints ++
          pts.filter (fun p =>
            decide (enclosingIdxs bs shrinkFactor (pixelOf P R RT p) = [i])) := by
          rw [← hfc]; exact h2
      _ = (bs.getD i emptyBox).lidarPoints ++
          pts.filter (fun p =>
            decide (enclosingIdxs bs shrinkFactor (pixelOf P R RT p) = [i])) ++
          pts.filter (fun p =>
            decide (enclosingIdxs bs shrinkFactor (pixelOf P R RT p) = [i])) := by
          rw [h1]
  · intro boundingBox kptsPrev kptsCurr kptMatches
    refine ⟨clusterKpt_kptMatches boundingBox kptsPrev kptsCurr kptMatches, ?_⟩
    rw [clusterKpt_kptMatches, clusterKpt_kptMatches,
      kptSuffix_roi_eq boundingBox _ (clusterKpt_roi _ _ _ _)]
/-- Witness for C9: two boxes, one point projecting into exactly the first
box's region and one projecting outside both; the first box receives
exactly the first point. -/
theorem claim_C9_witness :
    enclosingIdxs [boxB, boxC] 0 (5, 7) = [0] ∧
    ((clusterLidarWithROI [boxB, boxC] [pInB, pOut] 0 idMat4 idMat4
        idMat4).getD 0 emptyBox).lidarPoints = [pInB] := by
  have h0 : projectLidar idMat4 idMat4 idMat4 pInB 0 = 5 := by
    norm_num [projectLidar, matApp, matMul, homog, idMat4, pInB]
  have h1 : projectLidar idMat4 idMat4 idMat4 pInB 1 = 7 := by
    norm_num [projectLidar, matApp, matMul, homog, idMat4, pInB]
  have h2 : projectLidar idMat4 idMat4 idMat4 pInB 2 = 1 := by
    norm_num [projectLidar, matApp, matMul, homog, idMat4, pInB]
  have hpixB : pixelOf idMat4 idMat4 idMat4 pInB = (5, 7) := by
    unfold pixelOf pixelQ
    have e0 : cvAt3 (projectLidar idMat4 idMat4 idMat4 pInB) 0 0 = 5 := h0
    have e1 : cvAt3 (projectLidar idMat4 idMat4 idMat4 pInB) 1 0 = 7 := h1
    have e2 : cvAt3 (projectLidar idMat4 idMat4 idMat4 pInB) 0 2 = 1 := h2
    rw [e0, e1, e2]
    norm_num [truncQ]
  have g0 : projectLidar idMat4 idMat4 idMat4 pOut 0 = 100 := by
    norm_num [projectLidar, matApp, matMul, homog, idMat4, pOut]
  have g1 : projectLidar idMat4 idMat4 idMat4 pOut 1 = 100 := by
    norm_num [projectLidar, matApp, matMul, homog, idMat4, pOut]
  have g2 : projectLidar idMat4 idMat4 idMat4 pOut 2 = 1 := by
    norm_num [projectLidar, matApp, matMul, homog, idMat4, pOut]
  have hpixOut : pixelOf idMat4 idMat4 idMat4 pOut = (100, 100) := by
    unfold pixelOf pixelQ
    have e0 : cvAt3 (projectLidar idMat4 idMat4 idMat4 pOut) 0 0 = 100 := g0
    have e1 : cvAt3 (projectLidar idMat4 idMat4 idMat4 pOut) 1 0 = 100 := g1
    have e2 : cvAt3 (projectLidar idMat4 idMat4 idMat4 pOut) 0 2 = 1 := g2
    rw [e0, e1, e2]
    norm_num [truncQ]
  have hcB : rectContainsI (shrinkRect 0 boxB.roi) (5, 7) = true := by
    norm_num [rectContainsI, shrinkRect, truncQ, boxB]
  have hcC : rectContainsI (shrinkRect 0 boxC.roi) (5, 7) = false := by
    norm_num [rectContainsI, shrinkRect, truncQ, boxC]
  have hcB2 : rectContainsI (shrinkRect 0 boxB.roi) (100, 100) = false := by
    norm_num [rectContainsI, shrinkRect, truncQ, boxB]
  have hcC2 : rectContainsI (shrinkRect 0 boxC.roi) (100, 100) = false := by
    norm_num [rectContainsI, shrinkRect, truncQ, boxC]
  have henc1 : enclosingIdxs [boxB, boxC] 0 (5, 7) = [0] := by
    simp [enclosingIdxs, List.range_succ, List.getD, hcB, hcC]
  have henc2 : enclosingIdxs [boxB, boxC] 0 (100, 100) = [] := by
    simp [enclosingIdxs, List.range_succ, List.getD, hcB2, hcC2]
  refine ⟨henc1, ?_⟩
  have h := (claim_C9 [boxB, boxC] [pInB, pOut] 0 idMat4 idMat4 idMat4).2.1 0
  rw [h]
  have hfilter : List.filter (fun p =>
      decide (enclosingIdxs [boxB, boxC] 0 (pixelOf idMat4 idMat4 idMat4 p) = [0]))
      [pInB, pOut] = [pInB] := by
    simp [List.filter_cons, hpixB, hpixOut, henc1, henc2]
  rw [hfilter]
  rfl
/-- Claim C1 (refuting evaluation): `matchBoundingBoxes` scans the current
frame's boxes with the *previous* frame's box count as bound (line 309).
At this input the previous keypoint lies in previous box 0 and the current
keypoint lies in current box 1, so the claim requires `votes[0][1]` to be
incremented; but since the previous frame has only one box, the scan never
tests current box 1 and the vote stays `0` (and with more previous than
current boxes the same loop reads out of bounds). -/
theorem claim_C1 :
    queryIdList prevF1 (truncPt (prevF1.keypoints.getD 0 (0, 0))) = [0] ∧
    rectContainsI ((currF1.boundingBoxes.getD 1 emptyBox).roi)
      (truncPt (currF1.keypoints.getD 0 (0, 0))) = true ∧
    pointCount msC1 prevF1 currF1 0 1 = 0 := by
  refine ⟨?_, ?_, ?_⟩
  · norm_num [queryIdList, prevF1, List.range_succ, List.getD, rectContainsI,
      emptyBox, truncPt, truncQ, List.filter]
  · norm_num [currF1, List.getD, rectContainsI, emptyBox, truncPt, truncQ]
  · norm_num [pointCount, queryIdList, trainIdList, bumpVote, truncPt, truncQ,
      prevF1, currF1, msC1, emptyBox, rectContainsI, List.getD,
      List.range_succ, List.filter, List.foldl]
